import Mathlib

/-!
Shallow embedding of the `simplefs` filesystem core (src/simplefs/src/fs.rs)
and the collaborating modules it uses.  The repository ships only `fs.rs`;
the modules `sb` (SuperBlock), `alloc` (Bitmap, NextAvailableAllocation),
`node` (InodeGroup) and `io` (BlockStorage) are declared and called there but
their sources are absent, so those parts are modelled from the spec (each such
definition carries a doc comment starting with "Modelled from the spec:").

Conventions of the embedding:
* machine integers are `Nat`; on-disk bytes are `Nat` values < 256;
* a device block is a byte function `Nat → Nat`, the device a function from
  block index to block;
* Rust panics (`unwrap` on `None`/`Err`, out-of-range slice indexing,
  `unimplemented!`) are modelled as the error value `SFSError.crash`;
* `HashMap<OsString, u32>` is modelled as an association list
  `List (List Nat × Nat)` (name bytes, inum); Rust's iteration order over a
  `HashMap` is unspecified, the model iterates in list order.  None of the
  theorems below depends on that order.
-/

set_option maxRecDepth 10000

/-! ## Byte-level helpers (little-endian integers, decimal strings) -/

def u16le (n : Nat) : List Nat :=
  [n % 256, n / 256 % 256]

def u32le (n : Nat) : List Nat :=
  [n % 256, n / 256 % 256, n / 65536 % 256, n / 16777216 % 256]

def readU32 (b : Nat → Nat) (off : Nat) : Nat :=
  b off % 256 + 256 * (b (off + 1) % 256) + 65536 * (b (off + 2) % 256) +
    16777216 * (b (off + 3) % 256)

def readU16 (b : Nat → Nat) (off : Nat) : Nat :=
  b off % 256 + 256 * (b (off + 1) % 256)

/-- Decimal digits of `n` as ASCII bytes, as produced by Rust's
`format!("{}", n)` for a `u32`. -/
def decimalBytes (n : Nat) : List Nat :=
  (Nat.toDigits 10 n).map Char.toNat

/-- Rust's `str::parse::<u32>`: succeeds on a non-empty all-digit string whose
value fits in 32 bits. -/
def parseU32 (l : List Nat) : Option Nat :=
  if l = [] then none
  else if l.all (fun b => decide (48 ≤ b) && decide (b ≤ 57)) then
    let v := l.foldl (fun a b => a * 10 + (b - 48)) 0
    if v < 4294967296 then some v else none
  else none

/-! ## Layout constants (fs.rs) -/

def SB_MAGIC : Nat := 0x53465342

def BLOCK_SIZE : Nat := 4096

def NODE_SIZE : Nat := 256

def SUPERBLOCK_INDEX : Nat := 0

def DATA_REGION_BMP : Nat := 1

def INODE_BMP : Nat := 2

def INODE_START : Nat := 3

/-! ## Bitmap (module `alloc`, absent from src/) -/

/-- Modelled from the spec: a `Bitmap` is a 4096-byte fixed bit vector; we
represent it by its characteristic function (bit index ↦ `Used`). -/
abbrev Bitmap := Nat → Bool

namespace Bitmap

/-- Modelled from the spec: `Bitmap::new()` is the all-zero (all-`Free`)
bitmap. -/
def new : Bitmap := fun _ => false

/-- Modelled from the spec: `set_reserved i` marks bit `i` `Used`. -/
def set_reserved (bm : Bitmap) (i : Nat) : Bitmap :=
  fun j => if j = i then true else bm j

/-- Byte `off` of the serialized 4096-byte image (bits packed LSB-first; the
spec fixes the image size but not the bit order, the choice is internal). -/
def byteAt (bm : Bitmap) (off : Nat) : Nat :=
  (if bm (8 * off) then 1 else 0) +
  2 * (if bm (8 * off + 1) then 1 else 0) +
  4 * (if bm (8 * off + 2) then 1 else 0) +
  8 * (if bm (8 * off + 3) then 1 else 0) +
  16 * (if bm (8 * off + 4) then 1 else 0) +
  32 * (if bm (8 * off + 5) then 1 else 0) +
  64 * (if bm (8 * off + 6) then 1 else 0) +
  128 * (if bm (8 * off + 7) then 1 else 0)

/-- Modelled from the spec: `Bitmap::parse` adopts an existing 4096-byte
image (inverse of `byteAt`). -/
def parse (b : Nat → Nat) : Bitmap :=
  fun i => Nat.testBit (b (i / 8) % 256) (i % 8)

end Bitmap

/-- Modelled from the spec: the data-region allocator
(`NextAvailableAllocation`) scans a snapshot of the data bitmap and yields the
free indices of the semantic range `[8, 64)` in increasing order; indices
`0..8` are never returned. -/
def freeDataIndices (bm : Bitmap) : List Nat :=
  (List.range 64).filter (fun i => decide (8 ≤ i) && !bm i)

/-! ## Inodes (module `node`, absent from src/) -/

/-- Modelled from the spec: a 256-byte packed inode record. -/
structure Inode where
  mode : Nat
  uid : Nat
  gid : Nat
  links_count : Nat
  size : Nat
  create_time : Nat
  update_time : Nat
  access_time : Nat
  /-- 15 direct data-block pointers. -/
  blocks : List Nat
deriving DecidableEq

/-- The all-zero inode image (a free slot). -/
def zeroInode : Inode :=
  { mode := 0, uid := 0, gid := 0, links_count := 0, size := 0,
    create_time := 0, update_time := 0, access_time := 0,
    blocks := List.replicate 15 0 }

/-- Modelled from the spec: the root directory inode created at format time:
default fields, directory mode `0x4000`, and `blocks[0] = 8`. -/
def rootInode : Inode :=
  { zeroInode with mode := 0x4000, blocks := 8 :: List.replicate 14 0 }

/-- Modelled from the spec: a freshly allocated (non-root) file inode has
default fields; in particular all block pointers are zero. -/
def defaultFileInode : Inode := zeroInode

/-- Modelled from the spec: the pool of 80 inodes together with its
allocation bitmap. -/
structure InodeGroup where
  allocations : Bitmap
  nodes : Nat → Inode

namespace InodeGroup

/-- Modelled from the spec: `InodeGroup::new` pre-populates inode 0 as the
root directory and sets its bitmap bit. -/
def new (bm : Bitmap) : InodeGroup :=
  { allocations := fun i => if i = 0 then true else bm i,
    nodes := fun i => if i = 0 then rootInode else zeroInode }

/-- Modelled from the spec: `InodeGroup::open` adopts an allocation bitmap
without pre-populating any inode. -/
def openGroup (bm : Bitmap) : InodeGroup :=
  { allocations := bm, nodes := fun _ => zeroInode }

/-- Modelled from the spec: `get` returns the inode if its bit is set. -/
def get (g : InodeGroup) (inum : Nat) : Option Inode :=
  if g.allocations inum then some (g.nodes inum) else none

/-- Pointwise update used to model mutation through `get_mut`. -/
def set (g : InodeGroup) (inum : Nat) (node : Inode) : InodeGroup :=
  { g with nodes := fun j => if j = inum then node else g.nodes j }

/-- Modelled from the spec: `allocate_file` (called `new_file` at the fs.rs
call site) reserves the lowest-indexed free inode of the 80, marks it used and
populates it with default non-root fields; it fails with `OutOfSpace` when all
80 are used (the call site does not propagate the failure, so the failure is a
panic from the caller's point of view). -/
def new_file (g : InodeGroup) : Option (Nat × InodeGroup) :=
  match (List.range 80).find? (fun i => !g.allocations i) with
  | none => none
  | some i =>
      some (i,
        { allocations := fun j => if j = i then true else g.allocations j,
          nodes := fun j => if j = i then defaultFileInode else g.nodes j })

/-- Modelled from the spec: the 256-byte on-disk image of one inode:
`mode`, `uid`, `gid`, `links_count` as u16, then `size` and the three
timestamps as u32, 43 zero padding words, then the 15 block pointers. -/
def inodeBytes (node : Inode) : List Nat :=
  u16le node.mode ++ u16le node.uid ++ u16le node.gid ++
    u16le node.links_count ++ u32le node.size ++ u32le node.create_time ++
    u32le node.update_time ++ u32le node.access_time ++
    List.replicate 172 0 ++ node.blocks.flatMap u32le

/-- Modelled from the spec: `serialize_block` encodes the 16 inodes of
relative inode block `relIdx` into a 4096-byte image, zero-filling free
slots. -/
def serialize_block (g : InodeGroup) (relIdx : Nat) : List Nat :=
  (List.range 16).flatMap (fun j =>
    if g.allocations (16 * relIdx + j) then inodeBytes (g.nodes (16 * relIdx + j))
    else List.replicate 256 0)

/-- Modelled from the spec: decode one 256-byte inode image starting at
`off`. -/
def parseInode (b : Nat → Nat) (off : Nat) : Inode :=
  { mode := readU16 b off, uid := readU16 b (off + 2),
    gid := readU16 b (off + 4), links_count := readU16 b (off + 6),
    size := readU32 b (off + 8), create_time := readU32 b (off + 12),
    update_time := readU32 b (off + 16), access_time := readU32 b (off + 20),
    blocks := (List.range 15).map (fun k => readU32 b (off + 196 + 4 * k)) }

/-- Modelled from the spec: `load_block` decodes the 16 inodes of relative
inode block `relIdx` from a 4096-byte image, skipping slots whose allocation
bit is `Free`. -/
def load_block (g : InodeGroup) (relIdx : Nat) (b : Nat → Nat) : InodeGroup :=
  { g with
    nodes := fun j =>
      if 16 * relIdx ≤ j ∧ j < 16 * relIdx + 16 ∧ g.allocations j then
        parseInode b (256 * (j - 16 * relIdx))
      else g.nodes j }

end InodeGroup

/-! ## SuperBlock (module `sb`, absent from src/) -/

/-- Modelled from the spec: the 28-byte superblock header (field multiset from
spec §3; the field values set by `Default` are in fs.rs itself). -/
structure SuperBlock where
  sb_magic : Nat
  inodes_count : Nat
  blocks_count : Nat
  reserved_blocks_count : Nat
  free_blocks_count : Nat
  free_inodes_count : Nat
  pad : Nat
deriving DecidableEq

namespace SuperBlock

/-- `impl Default for SuperBlock` from fs.rs: magic set, 80 inodes
(5 blocks of 16), 56 data blocks, zero reserved/free-block counters, all
inodes initially free. -/
def default : SuperBlock :=
  { sb_magic := SB_MAGIC,
    inodes_count := 5 * (BLOCK_SIZE / NODE_SIZE),
    blocks_count := 56,
    reserved_blocks_count := 0,
    free_blocks_count := 0,
    free_inodes_count := 5 * (BLOCK_SIZE / NODE_SIZE),
    pad := 0 }

/-- Modelled from the spec: `serialize` is the 28-byte little-endian image,
fields in the order of spec §3. -/
def serialize (sb : SuperBlock) : List Nat :=
  u32le sb.sb_magic ++ u32le sb.inodes_count ++ u32le sb.blocks_count ++
    u32le sb.reserved_blocks_count ++ u32le sb.free_blocks_count ++
    u32le sb.free_inodes_count ++ u32le sb.pad

/-- Modelled from the spec: `parse(bytes, expected_magic)` returns the decoded
superblock and fails (`InvalidBlock`) if the magic does not match. -/
def parse (b : Nat → Nat) (expected : Nat) : Option SuperBlock :=
  if readU32 b 0 = expected then
    some { sb_magic := readU32 b 0, inodes_count := readU32 b 4,
           blocks_count := readU32 b 8, reserved_blocks_count := readU32 b 12,
           free_blocks_count := readU32 b 16, free_inodes_count := readU32 b 20,
           pad := readU32 b 24 }
  else none

end SuperBlock

/-! ## Block device (module `io`, absent from src/) -/

/-- A device block: byte offset ↦ byte value (offsets ≥ 4096 are never
inspected). -/
abbrev Block := Nat → Nat

/-- The block device: block index ↦ block. -/
abbrev Disk := Nat → Block

/-- Replace block `i` of the device. -/
def updateDisk (d : Disk) (i : Nat) (b : Block) : Disk :=
  fun j => if j = i then b else d j

/-- Modelled from the spec: `write_block` with a buffer `bytes`; the spec
fixes full-block writes, the directory write path passes the final (possibly
short) chunk, whose tail-of-block behavior no claim observes — the model
overwrites the buffer's prefix and keeps the remaining bytes. -/
def writeBlockBytes (d : Disk) (i : Nat) (bytes : List Nat) : Disk :=
  updateDisk d i (fun off => if off < bytes.length then bytes.getD off 0 else d i off)

/-- Split a byte string into successive chunks of at most 4096 bytes, as
`chunks_mut(BLOCK_SIZE)` does. -/
def blockChunks (l : List Nat) : List (List Nat) :=
  if h : l = [] then []
  else l.take 4096 :: blockChunks (l.drop 4096)
termination_by l.length
decreasing_by
  have hpos : 0 < l.length := List.length_pos.mpr h
  simp only [List.length_drop]
  omega

/-- Write chunk `k` of `chs` to the `k`-th block index of `blks` (the
zip silently stops at the shorter list; in `write_dir` the block list is
provably at least as long as the chunk list). -/
def writeChunks (d : Disk) (blks : List Nat) (chs : List (List Nat)) : Disk :=
  (blks.zip chs).foldl (fun acc bc => writeBlockBytes acc bc.1 bc.2) d

/-! ## Errors, open modes, directory encoding -/

/-- `SFSError` from fs.rs, extended with the spec's `OutOfSpace` kind (§7,
raised inside the absent `alloc`/`node` modules) and with `crash`, which
models a Rust panic (`unwrap`, out-of-range slice index, `unimplemented!`).
The `InvalidBlock` payload (a wrapped I/O error) is dropped. -/
inductive SFSError where
  | invalidArgument (msg : String)
  | doesNotExist
  | invalidBlock
  | outOfSpace
  | crash
deriving DecidableEq

/-- `OpenMode` from fs.rs. -/
inductive OpenMode where
  | RO
  | WO
  | RW
  | DIRECTORY
  | CREATE
deriving DecidableEq

/-- A directory mapping: association list of (name bytes, inum). -/
abbrev DirMap := List (List Nat × Nat)

/-- `HashMap::insert`: replace the value of an existing key in place, or
append the new binding. -/
def insertEntry : DirMap → List Nat → Nat → DirMap
  | [], k, v => [(k, v)]
  | (k', v') :: rest, k, v =>
      if k' = k then (k', v) :: rest else (k', v') :: insertEntry rest k v

/-- Directory serialization from `write_dir`: one record
`"<inum>:<name>\n"` per entry (in iteration order), then one NUL byte. -/
def serializeDir (entries : DirMap) : List Nat :=
  (entries.flatMap (fun e => decimalBytes e.2 ++ [58] ++ e.1 ++ [10])) ++ [0]

/-- The `allocated_blocks` local of `write_dir`: the inode's block pointers
strictly greater than 8. -/
def heldBlocks (node : Inode) : List Nat :=
  node.blocks.filter (fun b => decide (8 < b))

/-- The `needed` local of `write_dir`: `1 + contents.len() / BLOCK_SIZE`
blocks are deemed necessary for a serialized directory. -/
def neededBlocks (entries : DirMap) : Nat :=
  1 + (serializeDir entries).length / BLOCK_SIZE

/-- Rust's `str::lines` on a byte string: split on `'\n'` (10), without a
trailing empty line. -/
def linesOf (bytes : List Nat) : List (List Nat) :=
  let segs := bytes.splitOn 10
  match segs.getLast? with
  | some [] => segs.dropLast
  | _ => segs

/-- One iteration of the parse loop in `read_dir`: `line.split(':')`, read the
two leading segments (the second `next()` panics when the line has no `':'`),
parse the first as `u32`.  Returns the `(name, inum)` binding, or `none` for
a panic. -/
def parseDirLine (line : List Nat) : Option (List Nat × Nat) :=
  match line.splitOn 58 with
  | [] => none
  | [_] => none
  | seg1 :: seg2 :: _ =>
      match parseU32 seg1 with
      | none => none
      | some v => some (seg2, v)

/-! ## The filesystem object and its operations (fs.rs) -/

/-- The `SFS<T>` struct: device, superblock, data bitmap, inode group. -/
structure SFS where
  dev : Disk
  super_block : SuperBlock
  data_map : Bitmap
  inodes : InodeGroup

namespace SFS

/-- `SFS::create`: write the default superblock image (in a zeroed block
buffer) to block 0, a fresh data bitmap to block 1, the inode bitmap (bit 0
set) to block 2 and inode block 0 (holding the root inode) to block 3, then
sync.  The device itself is total in the model, so formatting always
succeeds. -/
def create (dev : Disk) : SFS :=
  let d1 := updateDisk dev SUPERBLOCK_INDEX
    (fun off => (SuperBlock.serialize SuperBlock.default).getD off 0)
  let data_map : Bitmap := Bitmap.new
  let d2 := updateDisk d1 DATA_REGION_BMP (fun off => Bitmap.byteAt data_map off)
  let inodes := InodeGroup.new Bitmap.new
  let d3 := updateDisk d2 INODE_BMP (fun off => Bitmap.byteAt inodes.allocations off)
  let d4 := updateDisk d3 INODE_START
    (fun off => (InodeGroup.serialize_block inodes 0).getD off 0)
  { dev := d4, super_block := SuperBlock.default, data_map := data_map,
    inodes := inodes }

/-- `SFS::from_block_storage`: parse the superblock of block 0 (checking the
magic), adopt the two bitmaps from blocks 1 and 2, then load the five inode
blocks 3..8. -/
def from_block_storage (dev : Disk) : Except SFSError SFS :=
  match SuperBlock.parse (dev 0) SB_MAGIC with
  | none => .error .invalidBlock
  | some super_block =>
      let data_map := Bitmap.parse (dev DATA_REGION_BMP)
      let inode_allocs := Bitmap.parse (dev INODE_BMP)
      let g0 := InodeGroup.openGroup inode_allocs
      let inodes := (List.range 5).foldl
        (fun g i => InodeGroup.load_block g i (dev (INODE_START + i))) g0
      .ok { dev := dev, super_block := super_block, data_map := data_map,
            inodes := inodes }

/-- The block-pointer filter of `read_file`: keep pointers strictly greater
than `inodes_count + 3`. -/
def allocated_data_blocks (fs : SFS) (inum : Nat) : List Nat :=
  ((fs.inodes.nodes inum).blocks).filter
    (fun b => decide (fs.super_block.inodes_count + 3 < b))

/-- `SFS::read_file`: fail with `DoesNotExist` for an unallocated inode;
collect the block pointers greater than `inodes_count + 3`; then read each
block into `content[i*4096 .. (i+1)*4096]` — where `content` was allocated
with length `allocated_blocks.len()` (one byte per block, at most 15), so the
very first slice `content[0..4096]` panics whenever the collected list is
non-empty.  The result is the empty buffer or a panic. -/
def read_file (fs : SFS) (inum : Nat) : Except SFSError (List Nat) :=
  match fs.inodes.get inum with
  | none => .error .doesNotExist
  | some _ =>
      let allocated_blocks := allocated_data_blocks fs inum
      if allocated_blocks = [] then .ok [] else .error .crash

/-- `SFS::read_dir`: read the file at `inum`, decode as UTF-8 (the decode is
modelled bytewise; `read_file` provably returns only the empty buffer, so the
decode details are unobservable), split into lines, parse each line as
`"<inum>:<name>"`, and insert the bindings into a fresh map. -/
def read_dir (fs : SFS) (inum : Nat) : Except SFSError DirMap :=
  match read_file fs inum with
  | .error e => .error e
  | .ok content =>
      match (linesOf content).mapM parseDirLine with
      | none => .error .crash
      | some es => .ok (es.foldl (fun m kv => insertEntry m kv.1 kv.2) [])

/-- The `new_blocks` local of `write_dir`: the missing block indices, drawn
in order from the allocator's snapshot of the data bitmap. -/
def freshBlocks (fs : SFS) (node : Inode) (entries : DirMap) : List Nat :=
  (freeDataIndices fs.data_map).take (neededBlocks entries - (heldBlocks node).length)

/-- `SFS::write_dir`: serialize the map, fetch the inode (`unwrap`), collect
its block pointers greater than 8, compute the needed block count
`1 + len / BLOCK_SIZE`; if fewer blocks are held, draw the missing ones from
the allocator snapshot (panicking when the data region is exhausted), mark
them reserved, overwrite the front of `blocks[]` with old-then-new pointers
(`copy_from_slice` panics if more than 15), and write the serialized bytes
chunkwise to the combined block list; otherwise write the chunks to the
already-held blocks. -/
def write_dir (fs : SFS) (dir : Nat) (entries : DirMap) :
    Except SFSError Unit × SFS :=
  match fs.inodes.get dir with
  | none => (.error .crash, fs)
  | some node =>
      if (heldBlocks node).length < neededBlocks entries then
        if (freshBlocks fs node entries).length <
            neededBlocks entries - (heldBlocks node).length then
          (.error .outOfSpace, fs)
        else if node.blocks.length <
            (heldBlocks node ++ freshBlocks fs node entries).length then
          (.error .crash,
            { fs with data_map := fun i =>
                if i ∈ freshBlocks fs node entries then true
                else fs.data_map i })
        else
          (.ok (),
            { fs with
              data_map := fun i =>
                if i ∈ freshBlocks fs node entries then true
                else fs.data_map i,
              inodes := fs.inodes.set dir { node with blocks :=
                ((heldBlocks node ++ freshBlocks fs node entries) ++
                  node.blocks.drop
                    (heldBlocks node ++ freshBlocks fs node entries).length) },
              dev := writeChunks fs.dev
                (heldBlocks node ++ freshBlocks fs node entries)
                (blockChunks (serializeDir entries)) })
      else
        (.ok (), { fs with
          dev := writeChunks fs.dev (heldBlocks node)
                   (blockChunks (serializeDir entries)) })

end SFS

/-! ## Paths and `SFS::open` -/

/-- The path components relevant to the model (`std::path::Component`):
the leading root, `..`, and normal names.  `.` components are normalized away
by Rust's `components()` and never reach the core. -/
inductive PathComp where
  | rootDir
  | parentDir
  | normal (name : List Nat)
deriving DecidableEq

/-- `Component::as_os_str` as bytes. -/
def compBytes : PathComp → List Nat
  | .rootDir => [47]
  | .parentDir => [46, 46]
  | .normal n => n

/-- `Path::file_name`: the last component when it is a normal name. -/
def fileName (p : List PathComp) : Option (List Nat) :=
  match p.getLast? with
  | some (.normal n) => some n
  | _ => none

namespace SFS

/-- The component walk of `SFS::open`: read the directory at the current
inum, look the component up; on a miss fail with `InvalidArgument` when more
components remain, otherwise break with the current inum on `CREATE` and fail
with `DoesNotExist` on the other modes. -/
def resolve (fs : SFS) (mode : OpenMode) : Nat → List PathComp → Except SFSError Nat
  | inum, [] => .ok inum
  | inum, part :: rest =>
      match read_dir fs inum with
      | .error e => .error e
      | .ok content =>
          match List.lookup (compBytes part) content with
          | some n => resolve fs mode n rest
          | none =>
              if rest = [] then
                match mode with
                | .CREATE => .ok inum
                | _ => .error .doesNotExist
              else .error (.invalidArgument "Missing subdirectory in path.")

/-- `SFS::open` (named `openPath` because `open` is a Lean keyword): require
a leading root component, walk the remaining components, then dispatch on the
mode: `CREATE` allocates a fresh inode, re-reads the directory at the final
`inum`, inserts `(file_name, new_inum)` and persists via `write_dir`,
returning the new inum; `RO` returns the resolved inum; the remaining modes
hit `unimplemented!`. -/
def openPath (fs : SFS) (p : List PathComp) (mode : OpenMode) :
    Except SFSError Nat × SFS :=
  match p with
  | .rootDir :: parts =>
      match resolve fs mode 0 parts with
      | .error e => (.error e, fs)
      | .ok inum =>
          match mode with
          | .CREATE =>
              match fs.inodes.new_file with
              | none => (.error .outOfSpace, fs)
              | some (created_file, inodes') =>
                  match read_dir { fs with inodes := inodes' } inum with
                  | .error e => (.error e, { fs with inodes := inodes' })
                  | .ok parent_dir =>
                      match fileName p with
                      | none => (.error .crash, { fs with inodes := inodes' })
                      | some name =>
                          match (write_dir { fs with inodes := inodes' } inum
                              (insertEntry parent_dir name created_file)).1 with
                          | .error e =>
                              (.error e,
                               (write_dir { fs with inodes := inodes' } inum
                                 (insertEntry parent_dir name created_file)).2)
                          | .ok _ =>
                              (.ok created_file,
                               (write_dir { fs with inodes := inodes' } inum
                                 (insertEntry parent_dir name created_file)).2)
          | .RO => (.ok inum, fs)
          | _ => (.error .crash, fs)
  | _ => (.error (.invalidArgument "path must start with \"/\""), fs)

/-! ## The fuse `readdir` handler -/

/-- `FileType` of the fuse crate (only the used constructor matters). -/
inductive FType where
  | directory
  | regularFile
deriving DecidableEq

/-- A `ReplyDirectory` outcome: an error code, or `ok` together with the
entries added before it (each `reply.add(ino, offset, kind, name)`). -/
inductive Reply where
  | err (code : Nat)
  | ok (entries : List (Nat × Int × FType × String))
deriving DecidableEq

/-- `Filesystem::readdir` for `SFS`: translate the 1-based fuse ino down by
one, read that directory (replying `ENOENT` = 2 on failure); reply bare `ok`
when `offset == 2`, and otherwise add the two canned entries
`(1, 1, Directory, ".")` and `(1, 2, Directory, "..")` before `ok`.
`ino = 0` would underflow the `u64` subtraction in Rust; the handler is only
invoked with the fuse convention `ino ≥ 1`. -/
def readdir (fs : SFS) (ino : Nat) (offset : Int) : Reply :=
  match read_dir fs (ino - 1) with
  | .error _ => .err 2
  | .ok _ =>
      if offset = 2 then .ok []
      else .ok [(1, 1, .directory, "."), (1, 2, .directory, "..")]

end SFS

/-- The all-zero device. -/
def zeroDisk : Disk := fun _ _ => 0

/-- One step of the operation sequences the invariant claims quantify over:
an `open` call with a path and a mode. -/
def applyOp (fs : SFS) (op : List PathComp × OpenMode) : SFS :=
  (SFS.openPath fs op.1 op.2).2

/-- Every filesystem state reachable by `create` followed by a sequence of
`open` calls. -/
def reach (d0 : Disk) (ops : List (List PathComp × OpenMode)) : SFS :=
  ops.foldl applyOp (SFS.create d0)

/-! ## Basic facts about the read path -/

/-- `read_file` can only succeed with the empty buffer: a non-empty collected
block list makes the slice `content[0..4096]` of the 15-byte-at-most buffer
panic. -/
theorem read_file_ok_empty {fs : SFS} {inum : Nat} {c : List Nat}
    (h : SFS.read_file fs inum = .ok c) : c = [] := by
  unfold SFS.read_file at h
  cases hg : fs.inodes.get inum with
  | none => rw [hg] at h; exact Except.noConfusion h
  | some node =>
      rw [hg] at h
      by_cases he : SFS.allocated_data_blocks fs inum = []
      · rw [if_pos he] at h
        injection h with h'
        exact h'.symm
      · rw [if_neg he] at h
        exact Except.noConfusion h

/-- `read_dir` can only succeed with the empty mapping. -/
theorem read_dir_ok_empty {fs : SFS} {inum : Nat} {m : DirMap}
    (h : SFS.read_dir fs inum = .ok m) : m = [] := by
  unfold SFS.read_dir at h
  cases hrf : SFS.read_file fs inum with
  | error e => rw [hrf] at h; exact Except.noConfusion h
  | ok content =>
      rw [hrf] at h
      have hc : content = [] := read_file_ok_empty hrf
      subst hc
      have h' : Except.ok (ε := SFSError) ([] : DirMap) = .ok m := h
      injection h' with h''
      exact h''.symm

/-- A failing `read_dir` propagates the `read_file` outcome, which for an
unallocated inode is `DoesNotExist`. -/
theorem read_dir_unallocated {fs : SFS} {inum : Nat}
    (h : fs.inodes.allocations inum = false) :
    SFS.read_dir fs inum = .error .doesNotExist := by
  unfold SFS.read_dir SFS.read_file InodeGroup.get
  rw [h]
  rfl

/-! ## C1: directory round-trip -/

/-- C1 (code bug): on a freshly formatted volume, `write_dir(0, {"a" ↦ 1})`
succeeds, yet `read_dir(0)` afterwards returns the empty mapping instead of
the written one: the read path filters block pointers with
`> inodes_count + 3 = 83`, while every pointer the write path stores is < 64,
so nothing is ever read back.  The round trip claimed by the spec fails. -/
theorem c1_roundtrip_fails_on_code :
    (SFS.write_dir (SFS.create zeroDisk) 0 [([97], 1)]).1 = .ok () ∧
    SFS.read_dir (SFS.write_dir (SFS.create zeroDisk) 0 [([97], 1)]).2 0 =
      .ok [] ∧
    ([] : DirMap) ≠ [([97], 1)] :=
  ⟨rfl, rfl, by decide⟩

/-! ## C6: mount fails on bad magic -/

/-- C6: if block 0 does not hold the little-endian magic `0x53465342` at
offset 0, `from_block_storage` fails with `InvalidBlock` and returns no
filesystem object. -/
theorem c6_bad_magic_fails (d : Disk) (h : readU32 (d 0) 0 ≠ SB_MAGIC) :
    SFS.from_block_storage d = .error .invalidBlock := by
  unfold SFS.from_block_storage SuperBlock.parse
  rw [if_neg h]

theorem c6_bad_magic_fails_witness :
    readU32 (zeroDisk 0) 0 ≠ SB_MAGIC ∧
    SFS.from_block_storage zeroDisk = .error .invalidBlock :=
  ⟨by decide, c6_bad_magic_fails zeroDisk (by decide)⟩

/-! ## C7: superblock contents of a fresh volume -/

/-- C7: after a (always successful) `create`, parsing the first 28 bytes of
block 0 yields a superblock with the magic `0x53465342`, 80 inodes and 56
data blocks. -/
theorem c7_fresh_superblock_fields (d0 : Disk) :
    ∃ sb, SuperBlock.parse ((SFS.create d0).dev 0) SB_MAGIC = some sb ∧
      sb.sb_magic = 0x53465342 ∧ sb.inodes_count = 80 ∧ sb.blocks_count = 56 := by
  have hb : (SFS.create d0).dev 0 =
      (fun off => (SuperBlock.serialize SuperBlock.default).getD off 0) := rfl
  refine ⟨SuperBlock.default, ?_, rfl, rfl, rfl⟩
  rw [hb]
  rfl

/-! ## C8: the readdir handler -/

/-- C8 counterexample: at offset `3` (which is ≥ 2) on the readable root
directory, the handler does not reply `ok` with no entries — it adds the two
canned entries again, because the code only special-cases `offset == 2`. -/
theorem c8_readdir_counterexample :
    SFS.readdir (SFS.create zeroDisk) 1 3 =
      .ok [(1, 1, .directory, "."), (1, 2, .directory, "..")] ∧
    SFS.readdir (SFS.create zeroDisk) 1 3 ≠ .ok [] := by
  refine ⟨rfl, ?_⟩
  intro h
  rw [show SFS.readdir (SFS.create zeroDisk) 1 3 =
      .ok [(1, 1, .directory, "."), (1, 2, .directory, "..")] from rfl] at h
  simp at h

/-- C8 amended: on a readable directory inode, the reply at `offset == 0`
holds exactly the entries `(1, 1, Directory, ".")` and `(1, 2, Directory,
"..")` followed by `ok`; at `offset == 2` it is `ok` with no entries; and at
every other offset — in particular every offset ≥ 3 — it again holds the two
canned entries followed by `ok`. -/
theorem c8_readdir_amended (fs : SFS) (ino : Nat) (offset : Int)
    (hread : ∃ m, SFS.read_dir fs (ino - 1) = .ok m) :
    (offset = 2 → SFS.readdir fs ino offset = .ok []) ∧
    (offset ≠ 2 → SFS.readdir fs ino offset =
      .ok [(1, 1, .directory, "."), (1, 2, .directory, "..")]) := by
  obtain ⟨m, hm⟩ := hread
  unfold SFS.readdir
  rw [hm]
  constructor
  · intro h2
    rw [if_pos h2]
  · intro h2
    rw [if_neg h2]

theorem c8_readdir_amended_witness :
    SFS.readdir (SFS.create zeroDisk) 1 0 =
      .ok [(1, 1, .directory, "."), (1, 2, .directory, "..")] :=
  (c8_readdir_amended (SFS.create zeroDisk) 1 0 ⟨[], rfl⟩).2 (by decide)

/-! ## C9: the data bitmap written at format time -/

/-- C9: `create` writes an all-zero data-region bitmap to block 1 — every
bit is `Free` — even though the freshly created root inode's `blocks[0]`
already references data block 8, whose bit is therefore not `Used` at format
time. -/
theorem c9_fresh_data_bitmap_free (d0 : Disk) (i : Nat) (h : i < 4096) :
    (SFS.create d0).dev DATA_REGION_BMP i = 0 ∧
    ((SFS.create d0).inodes.nodes 0).blocks.head? = some 8 ∧
    (SFS.create d0).data_map 8 = false := by
  have hb : (SFS.create d0).dev DATA_REGION_BMP =
      (fun off => Bitmap.byteAt Bitmap.new off) := rfl
  have hn : (SFS.create d0).inodes.nodes 0 = rootInode := rfl
  have hm : (SFS.create d0).data_map = Bitmap.new := rfl
  refine ⟨?_, ?_, ?_⟩
  · rw [hb]
    rfl
  · rw [hn]
    rfl
  · rw [hm]
    rfl

theorem c9_fresh_data_bitmap_free_witness :
    (SFS.create zeroDisk).dev DATA_REGION_BMP 0 = 0 ∧
    ((SFS.create zeroDisk).inodes.nodes 0).blocks.head? = some 8 ∧
    (SFS.create zeroDisk).data_map 8 = false :=
  c9_fresh_data_bitmap_free zeroDisk 0 (by decide)

/-! ## C10: superblock counters at format time -/

/-- C10: the default superblock has `free_inodes_count = inodes_count = 80`
but `free_blocks_count = 0` and `reserved_blocks_count = 0`, although all 56
data blocks of a fresh volume are free by the data bitmap — so
`free_blocks_count` does not reflect the actually free data blocks. -/
theorem c10_superblock_counters (d0 : Disk) :
    SuperBlock.default.free_inodes_count = SuperBlock.default.inodes_count ∧
    SuperBlock.default.inodes_count = 80 ∧
    SuperBlock.default.free_blocks_count = 0 ∧
    SuperBlock.default.reserved_blocks_count = 0 ∧
    (freeDataIndices (SFS.create d0).data_map).length = 56 ∧
    SuperBlock.default.free_blocks_count ≠
      (freeDataIndices (SFS.create d0).data_map).length := by
  have hm : (SFS.create d0).data_map = Bitmap.new := rfl
  rw [hm]
  refine ⟨rfl, rfl, rfl, rfl, by rfl, by decide⟩


/-! ## The reachable-state invariant behind C2 and C5 -/

/-- Invariant of every state reachable by `create` followed by `open` calls:
the superblock still carries 80 inodes, and every block pointer of every
inode slot is below 64 and, when it points into the data region (> 8), its
data-bitmap bit is `Used`. -/
def ReachInv (fs : SFS) : Prop :=
  fs.super_block.inodes_count = 80 ∧
  ∀ i, ∀ b ∈ (fs.inodes.nodes i).blocks, b ≤ 63 ∧ (8 < b → fs.data_map b = true)

theorem inv_create (d0 : Disk) : ReachInv (SFS.create d0) := by
  constructor
  · rfl
  · intro i b hb
    have hn : (SFS.create d0).inodes.nodes i =
        if i = 0 then rootInode else zeroInode := rfl
    rw [hn] at hb
    by_cases h0 : i = 0
    · rw [if_pos h0] at hb
      have hbl : rootInode.blocks = 8 :: List.replicate 14 0 := rfl
      rw [hbl] at hb
      rcases List.mem_cons.mp hb with rfl | hmem
      · exact ⟨by omega, fun h => absurd h (by omega)⟩
      · have hb0 := List.eq_of_mem_replicate hmem
        subst hb0
        exact ⟨by omega, fun h => absurd h (by omega)⟩
    · rw [if_neg h0] at hb
      have hbl : zeroInode.blocks = List.replicate 15 0 := rfl
      rw [hbl] at hb
      have hb0 := List.eq_of_mem_replicate hb
      subst hb0
      exact ⟨by omega, fun h => absurd h (by omega)⟩

theorem mem_freshBlocks_lt {fs : SFS} {node : Inode} {entries : DirMap} {b : Nat}
    (h : b ∈ SFS.freshBlocks fs node entries) : b < 64 := by
  unfold SFS.freshBlocks at h
  have h1 : b ∈ freeDataIndices fs.data_map := List.take_subset _ _ h
  unfold freeDataIndices at h1
  exact List.mem_range.mp (List.mem_of_mem_filter h1)

theorem mem_set_blocks {g : InodeGroup} {dir j b : Nat} {node' : Inode}
    (hb : b ∈ ((g.set dir node').nodes j).blocks) :
    b ∈ node'.blocks ∨ b ∈ (g.nodes j).blocks := by
  unfold InodeGroup.set at hb
  have hb' : b ∈ (if j = dir then node' else g.nodes j).blocks := hb
  by_cases hj : j = dir
  · rw [if_pos hj] at hb'
    exact Or.inl hb'
  · rw [if_neg hj] at hb'
    exact Or.inr hb'

theorem inv_write_dir {fs : SFS} (dir : Nat) (entries : DirMap)
    (hinv : ReachInv fs) : ReachInv (SFS.write_dir fs dir entries).2 := by
  obtain ⟨hsb, hbl⟩ := hinv
  unfold SFS.write_dir
  split
  · exact ⟨hsb, hbl⟩
  next node heq =>
    have hnode : node = fs.inodes.nodes dir := by
      unfold InodeGroup.get at heq
      split at heq
      · exact (Option.some.inj heq).symm
      · exact Option.noConfusion heq
    have hmark : ∀ c, (c ∈ SFS.freshBlocks fs node entries ∨
        fs.data_map c = true) →
        (if c ∈ SFS.freshBlocks fs node entries then true
         else fs.data_map c) = true := by
      intro c hc
      by_cases hf : c ∈ SFS.freshBlocks fs node entries
      · rw [if_pos hf]
      · rw [if_neg hf]
        exact hc.resolve_left hf
    split
    · split
      · -- allocator exhausted: panic, state unchanged
        exact ⟨hsb, hbl⟩
      · split
        · -- copy_from_slice panic: only the data bitmap has grown
          refine ⟨hsb, fun j b hb => ?_⟩
          obtain ⟨h63, hdm⟩ := hbl j b hb
          exact ⟨h63, fun h8 => hmark b (Or.inr (hdm h8))⟩
        · -- the successful allocation branch
          refine ⟨hsb, fun j b hb => ?_⟩
          rcases mem_set_blocks hb with h1 | h2
          · have h1' : b ∈ (heldBlocks node ++ SFS.freshBlocks fs node entries) ++
                node.blocks.drop
                  (heldBlocks node ++ SFS.freshBlocks fs node entries).length := h1
            rcases List.mem_append.mp h1' with h3 | h4
            · rcases List.mem_append.mp h3 with h5 | h6
              · have hmem : b ∈ node.blocks := List.mem_of_mem_filter h5
                rw [hnode] at hmem
                obtain ⟨h63, hdm⟩ := hbl dir b hmem
                exact ⟨h63, fun h8 => hmark b (Or.inr (hdm h8))⟩
              · refine ⟨?_, fun h8 => hmark b (Or.inl h6)⟩
                have := mem_freshBlocks_lt h6
                omega
            · have hmem : b ∈ node.blocks := List.drop_subset _ _ h4
              rw [hnode] at hmem
              obtain ⟨h63, hdm⟩ := hbl dir b hmem
              exact ⟨h63, fun h8 => hmark b (Or.inr (hdm h8))⟩
          · obtain ⟨h63, hdm⟩ := hbl j b h2
            exact ⟨h63, fun h8 => hmark b (Or.inr (hdm h8))⟩
    · -- enough blocks held: only the device changes
      exact ⟨hsb, hbl⟩

theorem inv_new_file {fs : SFS} {n : Nat} {g' : InodeGroup}
    (hnf : fs.inodes.new_file = some (n, g')) (hinv : ReachInv fs) :
    ReachInv { fs with inodes := g' } := by
  obtain ⟨hsb, hbl⟩ := hinv
  unfold InodeGroup.new_file at hnf
  cases hfind : (List.range 80).find? (fun i => !fs.inodes.allocations i) with
  | none => rw [hfind] at hnf; exact Option.noConfusion hnf
  | some i =>
      rw [hfind] at hnf
      injection hnf with hpair
      injection hpair with h1 h2
      subst h1
      subst h2
      refine ⟨hsb, fun j b hb => ?_⟩
      have hb' : b ∈ (if j = i then defaultFileInode else fs.inodes.nodes j).blocks :=
        hb
      by_cases hj : j = i
      · rw [if_pos hj] at hb'
        have hzero : defaultFileInode.blocks = List.replicate 15 0 := rfl
        rw [hzero] at hb'
        have hb0 := List.eq_of_mem_replicate hb'
        subst hb0
        exact ⟨by omega, fun h => absurd h (by omega)⟩
      · rw [if_neg hj] at hb'
        exact hbl j b hb'

theorem inv_openPath (fs : SFS) (p : List PathComp) (mode : OpenMode)
    (hinv : ReachInv fs) : ReachInv (SFS.openPath fs p mode).2 := by
  unfold SFS.openPath
  split
  · -- path starts with the root component
    split
    · exact hinv
    · -- resolution succeeded; dispatch on the mode
      split
      · -- CREATE
        split
        · exact hinv
        next created g' hnf =>
          have hinv₁ := inv_new_file hnf hinv
          split
          · exact hinv₁
          · split
            · exact hinv₁
            · split
              · exact inv_write_dir _ _ hinv₁
              · exact inv_write_dir _ _ hinv₁
      · -- RO
        exact hinv
      · -- remaining modes: unimplemented panic
        exact hinv
  · exact hinv

theorem inv_reach (d0 : Disk) (ops : List (List PathComp × OpenMode)) :
    ReachInv (reach d0 ops) := by
  unfold reach
  have hgen : ∀ (l : List (List PathComp × OpenMode)) (fs : SFS), ReachInv fs →
      ReachInv (l.foldl applyOp fs) := by
    intro l
    induction l with
    | nil => exact fun fs h => h
    | cons op l ih =>
        intro fs h
        exact ih _ (inv_openPath fs op.1 op.2 h)
  exact hgen ops _ (inv_create d0)

/-! ## C2: reads never touch the device and return nothing -/

/-- C2: in every state reachable by `create` followed by any sequence of
`open` calls, the block list `read_file` collects (pointers strictly greater
than `inodes_count + 3 = 83`) is empty — every pointer the core ever stores
is at most 63 — so `read_file` succeeds with the empty buffer without issuing
a single device read, and `read_dir` returns the empty mapping; on an
unallocated inode both fail with `DoesNotExist`. -/
theorem c2_reads_collect_nothing (d0 : Disk)
    (ops : List (List PathComp × OpenMode)) (inum : Nat) :
    SFS.allocated_data_blocks (reach d0 ops) inum = [] ∧
    ((reach d0 ops).inodes.allocations inum = true →
      SFS.read_file (reach d0 ops) inum = .ok [] ∧
      SFS.read_dir (reach d0 ops) inum = .ok []) ∧
    ((reach d0 ops).inodes.allocations inum = false →
      SFS.read_file (reach d0 ops) inum = .error .doesNotExist ∧
      SFS.read_dir (reach d0 ops) inum = .error .doesNotExist) := by
  obtain ⟨hsb, hbl⟩ := inv_reach d0 ops
  have hempty : SFS.allocated_data_blocks (reach d0 ops) inum = [] := by
    unfold SFS.allocated_data_blocks
    rw [List.filter_eq_nil_iff]
    intro b hb
    have h63 := (hbl inum b hb).1
    rw [hsb]
    simp only [decide_eq_true_eq]
    omega
  refine ⟨hempty, ?_, ?_⟩
  · intro halloc
    have hget : (reach d0 ops).inodes.get inum =
        some ((reach d0 ops).inodes.nodes inum) := by
      unfold InodeGroup.get
      rw [halloc]
      rfl
    have hrf : SFS.read_file (reach d0 ops) inum = .ok [] := by
      unfold SFS.read_file
      rw [hget, hempty]
      rfl
    refine ⟨hrf, ?_⟩
    unfold SFS.read_dir
    rw [hrf]
    rfl
  · intro halloc
    have hget : (reach d0 ops).inodes.get inum = none := by
      unfold InodeGroup.get
      rw [halloc]
      rfl
    have hrf : SFS.read_file (reach d0 ops) inum = .error .doesNotExist := by
      unfold SFS.read_file
      rw [hget]
    refine ⟨hrf, ?_⟩
    unfold SFS.read_dir
    rw [hrf]

theorem c2_reads_collect_nothing_witness :
    SFS.allocated_data_blocks (reach zeroDisk []) 0 = [] ∧
    SFS.read_file (reach zeroDisk []) 0 = .ok [] ∧
    SFS.read_dir (reach zeroDisk []) 0 = .ok [] ∧
    SFS.read_file (reach zeroDisk []) 79 = .error .doesNotExist :=
  ⟨(c2_reads_collect_nothing zeroDisk [] 0).1,
   ((c2_reads_collect_nothing zeroDisk [] 0).2.1 rfl).1,
   ((c2_reads_collect_nothing zeroDisk [] 0).2.1 rfl).2,
   ((c2_reads_collect_nothing zeroDisk [] 79).2.2 rfl).1⟩

/-! ## C5: referenced data blocks are marked used -/

/-- C5: in every state reachable by `create` followed by any sequence of
`open` calls, every value `b > 8` appearing in any inode slot's `blocks[]`
has bit `b` marked `Used` in the data bitmap. -/
theorem c5_blocks_marked_used (d0 : Disk)
    (ops : List (List PathComp × OpenMode)) (i b : Nat)
    (hb : b ∈ ((reach d0 ops).inodes.nodes i).blocks) (h8 : 8 < b) :
    (reach d0 ops).data_map b = true :=
  ((inv_reach d0 ops).2 i b hb).2 h8

theorem c5_blocks_marked_used_witness :
    9 ∈ ((reach zeroDisk
        [([.rootDir, .normal [102, 111, 111]], .CREATE),
         ([.rootDir, .normal [98, 97, 114]], .CREATE)]).inodes.nodes 0).blocks ∧
    (reach zeroDisk
        [([.rootDir, .normal [102, 111, 111]], .CREATE),
         ([.rootDir, .normal [98, 97, 114]], .CREATE)]).data_map 9 = true :=
  ⟨by decide,
   c5_blocks_marked_used zeroDisk
     [([.rootDir, .normal [102, 111, 111]], .CREATE),
      ([.rootDir, .normal [98, 97, 114]], .CREATE)] 0 9 (by decide) (by omega)⟩


/-! ## C3: what a successful CREATE open does -/

theorem resolve_cons (fs : SFS) (mode : OpenMode) (inum : Nat)
    (part : PathComp) (rest : List PathComp) :
    SFS.resolve fs mode inum (part :: rest) =
      match SFS.read_dir fs inum with
      | .error e => .error e
      | .ok content =>
          match List.lookup (compBytes part) content with
          | some n => SFS.resolve fs mode n rest
          | none =>
              if rest = [] then
                match mode with
                | .CREATE => .ok inum
                | _ => .error .doesNotExist
              else .error (.invalidArgument "Missing subdirectory in path.") := rfl

/-- A successful walk under `CREATE` never moves off the starting directory:
`read_dir` can only yield the empty mapping, so no component ever resolves,
and success requires at most one (then unresolved, final) component. -/
theorem resolve_create_ok {fs : SFS} {parts : List PathComp} {inum m : Nat}
    (h : SFS.resolve fs .CREATE inum parts = .ok m) :
    m = inum ∧ (parts = [] ∨ ∃ pc, parts = [pc]) := by
  cases parts with
  | nil =>
      have h' : Except.ok (ε := SFSError) inum = .ok m := h
      injection h' with h''
      exact ⟨h''.symm, Or.inl rfl⟩
  | cons pc rest =>
      rw [resolve_cons] at h
      cases hrd : SFS.read_dir fs inum with
      | error e => rw [hrd] at h; exact Except.noConfusion h
      | ok content =>
          rw [hrd] at h
          have hc := read_dir_ok_empty hrd
          subst hc
          cases rest with
          | nil =>
              have h' : Except.ok (ε := SFSError) inum = .ok m := h
              injection h' with h''
              exact ⟨h''.symm, Or.inr ⟨pc, rfl⟩⟩
          | cons q qs => exact Except.noConfusion h

/-- Unfolding of `openPath` for an absolute path under `CREATE`. -/
theorem openPath_root_create (fs : SFS) (parts : List PathComp) :
    SFS.openPath fs (.rootDir :: parts) .CREATE =
      match SFS.resolve fs .CREATE 0 parts with
      | .error e => (.error e, fs)
      | .ok inum =>
          match fs.inodes.new_file with
          | none => (.error .outOfSpace, fs)
          | some (created_file, inodes') =>
              match SFS.read_dir { fs with inodes := inodes' } inum with
              | .error e => (.error e, { fs with inodes := inodes' })
              | .ok parent_dir =>
                  match fileName (.rootDir :: parts) with
                  | none => (.error .crash, { fs with inodes := inodes' })
                  | some name =>
                      match (SFS.write_dir { fs with inodes := inodes' } inum
                          (insertEntry parent_dir name created_file)).1 with
                      | .error e =>
                          (.error e,
                           (SFS.write_dir { fs with inodes := inodes' } inum
                             (insertEntry parent_dir name created_file)).2)
                      | .ok _ =>
                          (.ok created_file,
                           (SFS.write_dir { fs with inodes := inodes' } inum
                             (insertEntry parent_dir name created_file)).2) := rfl

theorem fileName_root_normal (name : List Nat) :
    fileName [PathComp.rootDir, PathComp.normal name] = some name := rfl

/-- C3: every successful `open(path, CREATE)` allocates a fresh inode via
`new_file`, inserts `(final component name, new inum)` into the parent
directory — which, the walk never resolving any component, is necessarily the
root directory 0, the directory that contains the final component — persists
it with `write_dir`, and returns the new inum.  No hypothesis excludes an
on-disk entry for the final component: when one exists the read still yields
the empty mapping, the walk still breaks at the parent, and the insertion
still targets the parent directory. -/
theorem c3_create_targets_parent (fs : SFS) (p : List PathComp) (n : Nat)
    (fs' : SFS) (h : SFS.openPath fs p .CREATE = (.ok n, fs')) :
    ∃ name inodes' parent_dir,
      p = [.rootDir, .normal name] ∧
      fs.inodes.new_file = some (n, inodes') ∧
      SFS.read_dir { fs with inodes := inodes' } 0 = .ok parent_dir ∧
      (SFS.write_dir { fs with inodes := inodes' } 0
        (insertEntry parent_dir name n)).1 = .ok () ∧
      fs' = (SFS.write_dir { fs with inodes := inodes' } 0
        (insertEntry parent_dir name n)).2 := by
  cases p with
  | nil => exact Except.noConfusion (congrArg Prod.fst h)
  | cons c parts =>
      cases c with
      | parentDir => exact Except.noConfusion (congrArg Prod.fst h)
      | normal name0 => exact Except.noConfusion (congrArg Prod.fst h)
      | rootDir =>
          rw [openPath_root_create] at h
          cases hres : SFS.resolve fs .CREATE 0 parts with
          | error e =>
              simp only [hres] at h
              exact Except.noConfusion (congrArg Prod.fst h)
          | ok inum =>
              simp only [hres] at h
              obtain ⟨hm, hshape⟩ := resolve_create_ok hres
              subst hm
              cases hnf : fs.inodes.new_file with
              | none =>
                  simp only [hnf] at h
                  exact Except.noConfusion (congrArg Prod.fst h)
              | some pr =>
                  obtain ⟨created, inodes'⟩ := pr
                  simp only [hnf] at h
                  cases hrd : SFS.read_dir { fs with inodes := inodes' } 0 with
                  | error e =>
                      simp only [hrd] at h
                      exact Except.noConfusion (congrArg Prod.fst h)
                  | ok parent_dir =>
                      simp only [hrd] at h
                      rcases hshape with rfl | ⟨pc, rfl⟩
                      · exact Except.noConfusion (congrArg Prod.fst h)
                      · cases pc with
                        | rootDir =>
                            exact Except.noConfusion (congrArg Prod.fst h)
                        | parentDir =>
                            exact Except.noConfusion (congrArg Prod.fst h)
                        | normal name =>
                            simp only [fileName_root_normal] at h
                            cases hwd : (SFS.write_dir
                                { fs with inodes := inodes' } 0
                                (insertEntry parent_dir name created)).1 with
                            | error e =>
                                simp only [hwd] at h
                                exact Except.noConfusion (congrArg Prod.fst h)
                            | ok u =>
                                simp only [hwd] at h
                                have h1 : Except.ok (ε := SFSError) created =
                                    .ok n := congrArg Prod.fst h
                                have hcn : created = n := Except.ok.inj h1
                                subst hcn
                                exact ⟨name, inodes', parent_dir, rfl, rfl,
                                  hrd, hwd, (congrArg Prod.snd h).symm⟩

theorem c3_create_targets_parent_witness :
    ∃ name inodes' parent_dir,
      ([.rootDir, .normal [102, 111, 111]] : List PathComp) =
        [.rootDir, .normal name] ∧
      (SFS.create zeroDisk).inodes.new_file = some (1, inodes') ∧
      SFS.read_dir { SFS.create zeroDisk with inodes := inodes' } 0 =
        .ok parent_dir ∧
      (SFS.write_dir { SFS.create zeroDisk with inodes := inodes' } 0
        (insertEntry parent_dir name 1)).1 = .ok () ∧
      (SFS.openPath (SFS.create zeroDisk) [.rootDir, .normal [102, 111, 111]]
          .CREATE).2 =
        (SFS.write_dir { SFS.create zeroDisk with inodes := inodes' } 0
          (insertEntry parent_dir name 1)).2 :=
  c3_create_targets_parent (SFS.create zeroDisk)
    [.rootDir, .normal [102, 111, 111]] 1
    (SFS.openPath (SFS.create zeroDisk) [.rootDir, .normal [102, 111, 111]]
      .CREATE).2 rfl

/-! ## C4: how write_dir sizes a directory -/

/-- Number of `Used` bits in the 64-block range of the data bitmap. -/
def countUsed (bm : Bitmap) : Nat :=
  ((List.range 64).filter bm).length

/-- The name of 4092 `'a'` bytes whose single-entry directory serialization
is exactly 4096 bytes: `"1:" ++ name ++ "\n"` plus the trailing NUL. -/
def bigName : List Nat := List.replicate 4092 97

def m4096 : DirMap := [(bigName, 1)]

theorem serializeDir_m4096_length : (serializeDir m4096).length = 4096 := by
  have hd : decimalBytes 1 = [49] := rfl
  unfold serializeDir m4096 bigName
  simp only [List.flatMap_cons, List.flatMap_nil, List.append_nil, hd,
    List.length_append, List.length_replicate, List.length_cons,
    List.length_nil]

theorem neededBlocks_m4096 : neededBlocks m4096 = 2 := by
  unfold neededBlocks BLOCK_SIZE
  rw [serializeDir_m4096_length]

/-- C4 amended: `write_dir` sizes a directory as `1 + len / 4096` blocks
(not `max 1 ⌈len / 4096⌉`): the two agree exactly when `len` is not a
multiple of 4096, and differ by one — `len / 4096 + 1` — when it is.
Additional data blocks are marked only when the inode holds fewer than the
required count, and a successful allocating call marks exactly
`needed - held` fresh bits. -/
theorem c4_block_count_amended (fs : SFS) (dir : Nat) (entries : DirMap)
    (node : Inode) (hget : fs.inodes.get dir = some node) :
    (¬ (heldBlocks node).length < neededBlocks entries →
      (SFS.write_dir fs dir entries).2.data_map = fs.data_map ∧
      (SFS.write_dir fs dir entries).1 = .ok ()) ∧
    ((heldBlocks node).length < neededBlocks entries →
      (SFS.write_dir fs dir entries).1 = .ok () →
      ((SFS.write_dir fs dir entries).2.data_map = fun i =>
        if i ∈ SFS.freshBlocks fs node entries then true else fs.data_map i) ∧
      (SFS.freshBlocks fs node entries).length =
        neededBlocks entries - (heldBlocks node).length) ∧
    ((serializeDir entries).length % BLOCK_SIZE = 0 →
      neededBlocks entries = (serializeDir entries).length / BLOCK_SIZE + 1) ∧
    ((serializeDir entries).length % BLOCK_SIZE ≠ 0 →
      neededBlocks entries =
        max 1 (((serializeDir entries).length + (BLOCK_SIZE - 1)) / BLOCK_SIZE)) := by
  refine ⟨?_, ?_, ?_, ?_⟩
  · intro hge
    simp only [SFS.write_dir, hget]
    rw [if_neg hge]
    exact ⟨rfl, rfl⟩
  · intro hlt hok
    simp only [SFS.write_dir, hget] at hok ⊢
    rw [if_pos hlt] at hok ⊢
    by_cases hsh : (SFS.freshBlocks fs node entries).length <
        neededBlocks entries - (heldBlocks node).length
    · rw [if_pos hsh] at hok
      exact Except.noConfusion hok
    · rw [if_neg hsh] at hok ⊢
      by_cases hfit : node.blocks.length <
          (heldBlocks node ++ SFS.freshBlocks fs node entries).length
      · rw [if_pos hfit] at hok
        exact Except.noConfusion hok
      · rw [if_neg hfit]
        refine ⟨rfl, ?_⟩
        unfold SFS.freshBlocks at hsh ⊢
        rw [List.length_take] at hsh ⊢
        omega
  · intro h0
    unfold neededBlocks
    unfold BLOCK_SIZE at h0 ⊢
    omega
  · intro hne
    unfold neededBlocks
    unfold BLOCK_SIZE at hne ⊢
    omega

/-- Evaluation of the successful allocation branch of `write_dir`, stated
symbolically so concrete instances need not normalize the serialized
contents. -/
theorem write_dir_alloc_eval (fs : SFS) (dir : Nat) (entries : DirMap)
    (node : Inode) (hget : fs.inodes.get dir = some node)
    (hc1 : (heldBlocks node).length < neededBlocks entries)
    (hc2 : ¬ (SFS.freshBlocks fs node entries).length <
      neededBlocks entries - (heldBlocks node).length)
    (hc3 : ¬ node.blocks.length <
      (heldBlocks node ++ SFS.freshBlocks fs node entries).length) :
    (SFS.write_dir fs dir entries).1 = .ok () ∧
    (SFS.write_dir fs dir entries).2.data_map = fun i =>
      if i ∈ SFS.freshBlocks fs node entries then true else fs.data_map i := by
  simp only [SFS.write_dir, hget]
  rw [if_pos hc1, if_neg hc2, if_neg hc3]
  exact ⟨rfl, rfl⟩

/-- C4 counterexample: the serialized singleton `{bigName ↦ 1}` is exactly
4096 bytes.  The claim's required count `max 1 ⌈4096 / 4096⌉ = 1` with the
root inode holding 0 allocated blocks would allocate at most one block, yet
`write_dir` on a fresh volume marks two data-bitmap bits used (blocks 8 and
9). -/
theorem c4_block_count_counterexample :
    countUsed (SFS.create zeroDisk).data_map = 0 ∧
    heldBlocks rootInode = [] ∧
    (SFS.create zeroDisk).inodes.get 0 = some rootInode ∧
    (serializeDir m4096).length = 4096 ∧
    max 1 (((serializeDir m4096).length + (BLOCK_SIZE - 1)) / BLOCK_SIZE) = 1 ∧
    (SFS.write_dir (SFS.create zeroDisk) 0 m4096).1 = .ok () ∧
    countUsed (SFS.write_dir (SFS.create zeroDisk) 0 m4096).2.data_map = 2 := by
  have hget : (SFS.create zeroDisk).inodes.get 0 = some rootInode := rfl
  have hlen := serializeDir_m4096_length
  have hneed := neededBlocks_m4096
  have hheld : heldBlocks rootInode = [] := rfl
  have hfresh : SFS.freshBlocks (SFS.create zeroDisk) rootInode m4096 =
      [8, 9] := by
    unfold SFS.freshBlocks
    rw [hneed, hheld]
    rfl
  have hc1 : (heldBlocks rootInode).length < neededBlocks m4096 := by
    rw [hheld, hneed]
    decide
  have hc2 : ¬ (SFS.freshBlocks (SFS.create zeroDisk) rootInode m4096).length <
      neededBlocks m4096 - (heldBlocks rootInode).length := by
    rw [hfresh, hheld, hneed]
    decide
  have hc3 : ¬ rootInode.blocks.length <
      (heldBlocks rootInode ++
        SFS.freshBlocks (SFS.create zeroDisk) rootInode m4096).length := by
    rw [hfresh, hheld]
    decide
  have heval := write_dir_alloc_eval (SFS.create zeroDisk) 0 m4096 rootInode
    hget hc1 hc2 hc3
  refine ⟨rfl, hheld, hget, hlen, ?_, heval.1, ?_⟩
  · rw [hlen]
    decide
  · rw [heval.2]
    simp only [hfresh]
    rfl

theorem c4_block_count_amended_witness :
    ((SFS.write_dir (SFS.create zeroDisk) 0 [([97], 1)]).2.data_map = fun i =>
      if i ∈ SFS.freshBlocks (SFS.create zeroDisk) rootInode [([97], 1)] then
        true
      else (SFS.create zeroDisk).data_map i) ∧
    (SFS.freshBlocks (SFS.create zeroDisk) rootInode [([97], 1)]).length =
      neededBlocks [([97], 1)] - (heldBlocks rootInode).length ∧
    neededBlocks [([97], 1)] =
      max 1 (((serializeDir [([97], 1)]).length + (BLOCK_SIZE - 1)) /
        BLOCK_SIZE) :=
  ⟨((c4_block_count_amended (SFS.create zeroDisk) 0 [([97], 1)] rootInode
      rfl).2.1 (by decide) rfl).1,
   ((c4_block_count_amended (SFS.create zeroDisk) 0 [([97], 1)] rootInode
      rfl).2.1 (by decide) rfl).2,
   (c4_block_count_amended (SFS.create zeroDisk) 0 [([97], 1)] rootInode
      rfl).2.2.2 (by decide)⟩
